import Mathlib

/-!
Shallow embedding of the training-loop controller of the dApp-RL repository:
`ml-agents/mlagents/trainers/trainer_controller.py` (class `TrainerController`)
and `ml-agents/mlagents/trainers/trainer_util.py` (`TrainerFactory` /
`initialize_trainer`).

Python dictionaries are embedded as association lists over `String` keys;
`alookup` is `d[k]` / `d.get(k)` (first binding wins), `aset` is `d[k] = v`
(replace the first binding, else append), `dictUpdate` is `d.update(u)`.
Machine integers in the controller are step counters and frequencies, all
non-negative and far from any overflow, so they are embedded as `Nat`.
External collaborators (environment manager, curriculum increments, ghost
controller, the trainers' own learning algorithms) enter as parameters: the
controller only branches on the values they return, and those values are
universally quantified in the theorems.
-/

namespace MLAgents

/-- Python `d[k]` / `d.get(k)` on a dict embedded as an association list:
the first binding of `k`, if any. -/
def alookup {V : Type} (d : List (String × V)) (k : String) : Option V :=
  (d.find? (fun kv => kv.1 == k)).map (fun kv => kv.2)

/-- Python `k in d` membership test. -/
def acontains {V : Type} (d : List (String × V)) (k : String) : Bool :=
  (alookup d k).isSome

/-- Python `d[k] = v`: replace the first binding of `k`, else append. -/
def aset {V : Type} (d : List (String × V)) (k : String) (v : V) :
    List (String × V) :=
  match d with
  | [] => [(k, v)]
  | (k', v') :: rest => if k' = k then (k, v) :: rest else (k', v') :: aset rest k v

/-- Python `d.update(u)`: assign every binding of `u` into `d`, in order. -/
def dictUpdate {V : Type} (d u : List (String × V)) : List (String × V) :=
  u.foldl (fun acc kv => aset acc kv.1 kv.2) d

/-! ## Checkpoint cadence (`TrainerController._should_save_model` and the
per-step body of `start_learning`) -/

/-- `TrainerController._should_save_model`:
`global_step % self.save_freq == 0 and global_step != 0 and self.train_model`. -/
def shouldSaveModel (saveFreq : Nat) (trainModel : Bool) (globalStep : Nat) : Bool :=
  globalStep % saveFreq == 0 && globalStep != 0 && trainModel

/-- The inner `for _ in range(n_steps)` loop of `start_learning`: starting from
counter `gs`, perform `n` steps, incrementing `global_step` before each check
and recording the steps at which `_save_model` is called.  Returns the final
counter and the list of save steps, in order. -/
def stepBatch (saveFreq : Nat) (trainModel : Bool) : Nat → Nat → Nat × List Nat
  | gs, 0 => (gs, [])
  | gs, n + 1 =>
    ((stepBatch saveFreq trainModel (gs + 1) n).1,
      (if shouldSaveModel saveFreq trainModel (gs + 1) then [gs + 1] else []) ++
        (stepBatch saveFreq trainModel (gs + 1) n).2)

/-- The outer `while` loop of `start_learning`, restricted to its step/save
bookkeeping: each iteration advances the environment, obtaining a batch of
`n_steps`, and runs the inner loop.  `batches` is the sequence of `n_steps`
values returned by `env_manager.advance()` over the run. -/
def runBatches (saveFreq : Nat) (trainModel : Bool) : Nat → List Nat → Nat × List Nat
  | gs, [] => (gs, [])
  | gs, n :: bs =>
    ((runBatches saveFreq trainModel (stepBatch saveFreq trainModel gs n).1 bs).1,
      (stepBatch saveFreq trainModel gs n).2 ++
        (runBatches saveFreq trainModel (stepBatch saveFreq trainModel gs n).1 bs).2)

/-- Steps at which a checkpoint is saved over a whole run (`global_step` starts
at 0 in `start_learning`). -/
def mainLoopSaves (saveFreq : Nat) (trainModel : Bool) (batches : List Nat) : List Nat :=
  (runBatches saveFreq trainModel 0 batches).2

/-! ## Reset decision (`TrainerController.reset_env_if_ready`) -/

/-- Python truthiness of `self.resampling_interval : Optional[int]`:
`None` and `0` are falsy, any other count is truthy. -/
def intervalTruthy : Option Nat → Bool
  | none => false
  | some n => n != 0

/-- The `generalization_reset` condition of `reset_env_if_ready`:
`not self.sampler_manager.is_empty() and (steps != 0) and
(self.resampling_interval) and (steps % self.resampling_interval == 0)`,
with Python's short-circuiting `and` made explicit: the modulus is reached
only after the interval has tested truthy. -/
def generalizationReset (samplerEmpty : Bool) (steps : Nat) (interval : Option Nat) :
    Bool :=
  if samplerEmpty then false
  else if steps == 0 then false
  else
    match interval with
    | none => false
    | some n => if n == 0 then false else steps % n == 0

/-- `a % b` with the `ZeroDivisionError` Python raises on `b = 0` made explicit. -/
def checkedMod (a b : Nat) : Except Unit Nat :=
  if b == 0 then Except.error () else Except.ok (a % b)

/-- `generalizationReset` re-evaluated with every modulus routed through
`checkedMod`, so that a division by zero would surface as `Except.error`.
The branch structure is the same short-circuit as in the source. -/
def generalizationResetChecked (samplerEmpty : Bool) (steps : Nat)
    (interval : Option Nat) : Except Unit Bool :=
  if samplerEmpty then Except.ok false
  else if steps == 0 then Except.ok false
  else
    match interval with
    | none => Except.ok false
    | some n =>
      if n == 0 then Except.ok false
      else (checkedMod steps n).map (fun r => r == 0)

/-- The reset decision of `reset_env_if_ready`:
`meta_curriculum_reset or generalization_reset or ghost_controller_reset`.
`lessonsIncremented` is the map returned by
`meta_curriculum.increment_lessons` (empty when there is no curriculum),
`ghostShouldReset` the value of `self.ghost_controller.should_reset()`. -/
def resetEnvIfReady (lessonsIncremented : List (String × Bool)) (samplerEmpty : Bool)
    (ghostShouldReset : Bool) (steps : Nat) (interval : Option Nat) : Bool :=
  ((lessonsIncremented.map Prod.snd).any id ||
      generalizationReset samplerEmpty steps interval) ||
    ghostShouldReset

/-- Number of `end_trainer_episodes` calls (episode-end resets) performed by one
`reset_env_if_ready` call: the method ends in a single guarded call. -/
def numResetsThisStep (lessonsIncremented : List (String × Bool)) (samplerEmpty : Bool)
    (ghostShouldReset : Bool) (steps : Nat) (interval : Option Nat) : Nat :=
  if resetEnvIfReady lessonsIncremented samplerEmpty ghostShouldReset steps interval
  then 1 else 0

/-! ## Trainers and the episode-end reset (`TrainerController.end_trainer_episodes`) -/

/-- The slice of a `Trainer` the controller reads and writes: the
`should_still_train` property and the `reward_buffer` deque (buffer entries are
cumulative episode returns; only the controller's clearing of the buffer is at
stake here, so entries are opaque `Int`s). -/
structure Trainer where
  shouldStillTrain : Bool
  rewardBuffer : List Int
deriving DecidableEq

/-- The clearing loop of `end_trainer_episodes` (source lines 290-292):
`for brain_name, changed in lessons_incremented.items(): if changed:
self.trainers[brain_name].reward_buffer.clear()`.  A changed brain with no
trainer raises `KeyError` (`Except.error`).  The preceding `self._reset_env(env)`
and `trainer.end_episode()` calls act on the environment and on the trainers'
per-episode state, which live outside this module; neither touches
`reward_buffer`, so the reward-buffer effect of `end_trainer_episodes` is
exactly this loop. -/
def clearChangedBuffers (trainers : List (String × Trainer)) :
    List (String × Bool) → Except String (List (String × Trainer))
  | [] => Except.ok trainers
  | (brainName, changed) :: rest =>
    if changed then
      match alookup trainers brainName with
      | some t => clearChangedBuffers
          (aset trainers brainName { t with rewardBuffer := [] }) rest
      | none => Except.error brainName
    else clearChangedBuffers trainers rest

/-- `TrainerController.end_trainer_episodes`, restricted to its effect on the
trainers' reward buffers. -/
def endTrainerEpisodes (trainers : List (String × Trainer))
    (lessonsIncremented : List (String × Bool)) :
    Except String (List (String × Trainer)) :=
  clearChangedBuffers trainers lessonsIncremented

/-! ## Loop continuation (`TrainerController._not_done_training`) -/

/-- `TrainerController._not_done_training`:
`(any(t.should_still_train for t in self.trainers.values()) or not
self.train_model) or len(self.trainers) == 0`. -/
def notDoneTraining (trainers : List (String × Trainer)) (trainModel : Bool) : Bool :=
  ((trainers.map (fun p => p.2.shouldStillTrain)).any id || !trainModel) ||
    trainers.length == 0

/-! ## Shutdown protocol (`start_learning` exception handling and
`_save_model_when_interrupted`) -/

/-- Exceptions relevant to `start_learning`'s `try/except`.  `requestFailure`
stands for whatever `requests.post` raises when the trainee listener cannot be
reached (e.g. `ConnectionError`). -/
inductive Exc where
  | keyboardInterrupt
  | unityCommunication
  | unityEnvironment
  | unityCommunicatorStopped
  | requestFailure
deriving DecidableEq

/-- Externally visible actions of the shutdown path, in order. -/
inductive Event where
  | joinThreads
  | saveModel
  | notifyStopped (payload : List (String × String))
  | exportGraph
deriving DecidableEq

/-- Is this event a `_save_model` call? -/
def isSaveEvent : Event → Bool
  | Event.saveModel => true
  | _ => false

/-- Is this event a POST of the completion message to the trainee listener? -/
def isNotifyEvent : Event → Bool
  | Event.notifyStopped _ => true
  | _ => false

/-- Is this event an `_export_graph` call? -/
def isExportEvent : Event → Bool
  | Event.exportGraph => true
  | _ => false

/-- `TrainerController._save_model_when_interrupted`: saves the model, then
posts the completion message `{'training': 'stopped'}` to the external trainee
listener.  The `requests.post` call is not guarded by any `try`; `notifyOk =
false` models a delivery failure, whose exception escapes the method.  The POST
attempt (with its payload) is recorded as an event either way. -/
def saveModelWhenInterrupted (notifyOk : Bool) : List Event × Option Exc :=
  ([Event.saveModel, Event.notifyStopped [("training", "stopped")]],
    if notifyOk then none else some Exc.requestFailure)

/-- Which exceptions the `except` clause of `start_learning` catches. -/
def isCaught : Exc → Bool
  | Exc.keyboardInterrupt => true
  | Exc.unityCommunication => true
  | Exc.unityEnvironment => true
  | Exc.unityCommunicatorStopped => true
  | Exc.requestFailure => false

/-- Which caught exceptions are swallowed (`isinstance(ex, KeyboardInterrupt) or
isinstance(ex, UnityCommunicatorStoppedException)`). -/
def isCleanExit : Exc → Bool
  | Exc.keyboardInterrupt => true
  | Exc.unityCommunicatorStopped => true
  | _ => false

/-- The `try/except/finally` skeleton of `TrainerController.start_learning`
(source lines 241-280), from the point of view of its shutdown effects.
`loopExc` is the exception raised by the main-loop body (`none` when the loop
exits normally with final counter `globalStep`); `notifyOk` says whether the
completion POST, if attempted, is delivered.  Returns the shutdown events in
order and the exception escaping `start_learning`, if any. -/
def startLearningExit (trainModel : Bool) (notifyOk : Bool) (globalStep : Nat)
    (loopExc : Option Exc) : List Event × Option Exc :=
  match loopExc with
  | none =>
    ([Event.joinThreads] ++
        (if globalStep != 0 && trainModel then [Event.saveModel] else []) ++
        (if trainModel then [Event.exportGraph] else []),
      none)
  | some e =>
    if isCaught e then
      let handler := if trainModel then saveModelWhenInterrupted notifyOk
        else ([], none)
      match handler.2 with
      | some e2 =>
        ([Event.joinThreads] ++ handler.1 ++
            (if trainModel then [Event.exportGraph] else []),
          some e2)
      | none =>
        ([Event.joinThreads] ++ handler.1 ++
            (if trainModel then [Event.exportGraph] else []),
          if isCleanExit e then none else some e)
    else
      ((if trainModel then [Event.exportGraph] else []), some e)

/-! ## Trainer creation (`TrainerController._create_trainer_and_manager`) -/

/-- The controller state touched by `_create_trainer_and_manager`:
`self.trainers` (brain name → trainer, the trainer represented by its creation
index), `self.brain_name_to_identifier` (brain name → set of behavior ids,
the set embedded as a duplicate-free list in insertion order), and the ordered
list of brains for which `trainer_factory.generate` has been called. -/
structure ControllerState where
  trainers : List (String × Nat)
  brainNameToIdentifier : List (String × List String)
  createdBrains : List String
deriving DecidableEq

/-- `self.brain_name_to_identifier[brain_name].add(name_behavior_id)` on a
`defaultdict(set)`. -/
def addIdentifier (m : List (String × List String)) (brainName behaviorId : String) :
    List (String × List String) :=
  match alookup m brainName with
  | some ids => if behaviorId ∈ ids then m else aset m brainName (ids ++ [behaviorId])
  | none => aset m brainName [behaviorId]

/-- `TrainerController._create_trainer_and_manager` for one newly observed
behavior id: parse out the brain name (`brainOf` stands for
`BehaviorIdentifiers.from_name_behavior_id(...).brain_name`, defined outside
this module); fetch the trainer from `self.trainers`, on `KeyError` generate a
new one and store it; then register the behavior id.  Policy/queue wiring and
thread start touch no controller state modelled here. -/
def createTrainerAndManager (brainOf : String → String) (st : ControllerState)
    (behaviorId : String) : ControllerState :=
  let brainName := brainOf behaviorId
  match alookup st.trainers brainName with
  | some _ =>
    { st with
      brainNameToIdentifier := addIdentifier st.brainNameToIdentifier brainName behaviorId }
  | none =>
    { trainers := aset st.trainers brainName st.createdBrains.length
      brainNameToIdentifier := addIdentifier st.brainNameToIdentifier brainName behaviorId
      createdBrains := st.createdBrains ++ [brainName] }

/-- `TrainerController._create_trainers_and_managers` over a sequence of newly
observed behavior ids. -/
def createTrainersAndManagers (brainOf : String → String) (st : ControllerState)
    (behaviorIds : List String) : ControllerState :=
  behaviorIds.foldl (createTrainerAndManager brainOf) st

/-- Controller state at `__init__`: empty trainer map, empty identifier map. -/
def initialControllerState : ControllerState :=
  { trainers := [], brainNameToIdentifier := [], createdBrains := [] }

/-! ## Environment reset configuration (`TrainerController._reset_env`) -/

/-- The configuration `TrainerController._reset_env` passes to `env.reset`:
`sampled_reset_param = self.sampler_manager.sample_all()`;
`new_meta_curriculum_config = self.meta_curriculum.get_config() if
self.meta_curriculum else {}`;
`sampled_reset_param.update(new_meta_curriculum_config)`.
`curriculumConfig` is `some cfg` when a meta-curriculum is present. -/
def resetEnvConfig {V : Type} (sampled : List (String × V))
    (curriculumConfig : Option (List (String × V))) : List (String × V) :=
  dictUpdate sampled
    (match curriculumConfig with
      | some cfg => cfg
      | none => [])

/-! ## Trainer construction (`trainer_util.initialize_trainer`) -/

/-- Values stored in a trainer-configuration dictionary (YAML-derived):
strings, numbers, booleans and nested sections. -/
inductive PVal where
  | str (s : String)
  | num (n : Nat)
  | bool (b : Bool)
  | dict (d : List (String × PVal))

/-- Exceptions `initialize_trainer` can raise.  `keyError` and `typeError`
come from the unguarded dictionary accesses (notably the demo-path injection
into `behavioral_cloning` and `reward_signals.gail`); `aliasChainStuck` stands
for a per-brain alias chain that never reaches a section (in Python a
`KeyError` on a non-string key, or an infinite `while` loop on a cycle,
modelled with fuel). -/
inductive InitError where
  | trainerConfigError
  | unityTrainerException
  | keyError (k : String)
  | typeError
  | aliasChainStuck
deriving DecidableEq

/-- The trainer `initialize_trainer` returns: the algorithm selected by the
`"trainer"` key, whether it was wrapped in a `GhostTrainer` (`"self_play"` in
the parameters), the `min_lesson_length` handed to the constructor, and the
assembled `trainer_parameters`.  Constructor arguments that do not influence
control flow (seed, run id, summaries dir, train/load flags) are not tracked. -/
structure BuiltTrainer where
  kind : String
  selfPlayWrapped : Bool
  minLessonLen : Nat
  parameters : List (String × PVal)

/-- `trainer_config.get("default", {}).copy()`: a present non-dict `"default"`
value has no `.copy()` (Python `AttributeError`, modelled as `typeError`). -/
def defaultSection (cfg : List (String × PVal)) :
    Except InitError (List (String × PVal)) :=
  match alookup cfg "default" with
  | none => Except.ok []
  | some (PVal.dict d) => Except.ok d
  | some _ => Except.error InitError.typeError

/-- The `while not isinstance(trainer_config[_brain_key], dict)` alias chase of
`initialize_trainer` (source lines 116-120), with fuel: a string value is
followed as another key; a missing key raises `KeyError`. -/
def resolveBrainSection (cfg : List (String × PVal)) :
    Nat → String → Except InitError (List (String × PVal))
  | 0, _ => Except.error InitError.aliasChainStuck
  | fuel + 1, key =>
    match alookup cfg key with
    | none => Except.error (InitError.keyError key)
    | some (PVal.dict d) => Except.ok d
    | some (PVal.str s) => resolveBrainSection cfg fuel s
    | some _ => Except.error InitError.aliasChainStuck

/-- `trainer_parameters["behavioral_cloning"]["demo_path"] = mydemopath`
(source line 136): `KeyError` if the section is absent, `TypeError` if it is
not a dictionary. -/
def setBcDemoPath (p : List (String × PVal)) (demoPath : String) :
    Except InitError (List (String × PVal)) :=
  match alookup p "behavioral_cloning" with
  | none => Except.error (InitError.keyError "behavioral_cloning")
  | some (PVal.dict d) =>
    Except.ok (aset p "behavioral_cloning"
      (PVal.dict (aset d "demo_path" (PVal.str demoPath))))
  | some _ => Except.error InitError.typeError

/-- `trainer_parameters["reward_signals"]["gail"]["demo_path"] = mydemopath`
(source line 137). -/
def setGailDemoPath (p : List (String × PVal)) (demoPath : String) :
    Except InitError (List (String × PVal)) :=
  match alookup p "reward_signals" with
  | none => Except.error (InitError.keyError "reward_signals")
  | some (PVal.dict rs) =>
    match alookup rs "gail" with
    | none => Except.error (InitError.keyError "gail")
    | some (PVal.dict g) =>
      Except.ok (aset p "reward_signals"
        (PVal.dict (aset rs "gail" (PVal.dict (aset g "demo_path" (PVal.str demoPath))))))
    | some _ => Except.error InitError.typeError
  | some _ => Except.error InitError.typeError

/-- `min_lesson_length`: 1, unless the meta-curriculum (embedded as brain →
`min_lesson_length`) has a curriculum for this brain. -/
def minLessonLength (metaCurriculum : Option (List (String × Nat)))
    (brain : String) : Nat :=
  match metaCurriculum with
  | none => 1
  | some m =>
    match alookup m brain with
    | some v => v
    | none => 1

/-- `initialize_trainer`, part 1 (source lines 100-139): the guard on having a
`"default"` or per-brain section, and the assembly of `trainer_parameters` up
to and including the demo-path injection. -/
def buildTrainerParameters (mydemopath : String) (cfg : List (String × PVal))
    (brain runId modelPath : String) (keepCheckpoints : Nat)
    (initPath : Option String) (aliasFuel : Nat) :
    Except InitError (List (String × PVal)) :=
  if !acontains cfg "default" && !acontains cfg brain then
    Except.error InitError.trainerConfigError
  else do
    let base ← defaultSection cfg
    let p := aset base "summary_path" (PVal.str (runId ++ "_" ++ brain))
    let p := aset p "model_path" (PVal.str (modelPath ++ "/" ++ brain))
    let p := match initPath with
      | some ip => aset p "init_path" (PVal.str (ip ++ "/" ++ brain))
      | none => p
    let p := aset p "keep_checkpoints" (PVal.num keepCheckpoints)
    let p ←
      if acontains cfg brain then do
        let sec ← resolveBrainSection cfg aliasFuel brain
        pure (dictUpdate p sec)
      else pure p
    let p ← setBcDemoPath p mydemopath
    setGailDemoPath p mydemopath

/-- `initialize_trainer`, part 2 (source lines 142-193): the `"trainer"` key
must be present; the kind string then selects the trainer — `"offline_bc"` is
removed (`UnityTrainerException`), `"ppo"` and `"sac"` construct, anything else
is a `TrainerConfigError`; a `"self_play"` section wraps the result in a
`GhostTrainer`. -/
def selectTrainer (mll : Nat) (p : List (String × PVal)) :
    Except InitError BuiltTrainer :=
  if !acontains p "trainer" then Except.error InitError.trainerConfigError
  else
    match alookup p "trainer" with
    | some (PVal.str t) =>
      if t == "offline_bc" then Except.error InitError.unityTrainerException
      else if t == "ppo" then
        Except.ok ⟨"ppo", acontains p "self_play", mll, p⟩
      else if t == "sac" then
        Except.ok ⟨"sac", acontains p "self_play", mll, p⟩
      else Except.error InitError.trainerConfigError
    | _ => Except.error InitError.trainerConfigError

/-- `trainer_util.initialize_trainer`: assemble `trainer_parameters`, then
dispatch on the declared trainer kind; any exception from the assembly phase
propagates. -/
def initializeTrainer (mydemopath : String) (cfg : List (String × PVal))
    (brain runId modelPath : String) (keepCheckpoints : Nat)
    (initPath : Option String) (metaCurriculum : Option (List (String × Nat)))
    (aliasFuel : Nat) : Except InitError BuiltTrainer :=
  match buildTrainerParameters mydemopath cfg brain runId modelPath
      keepCheckpoints initPath aliasFuel with
  | Except.error e => Except.error e
  | Except.ok p => selectTrainer (minLessonLength metaCurriculum brain) p

/-! ## Association-list lemmas -/

@[simp]
theorem alookup_nil {V : Type} (k : String) :
    alookup ([] : List (String × V)) k = none := rfl

theorem alookup_cons {V : Type} (k' k : String) (v : V) (d : List (String × V)) :
    alookup ((k', v) :: d) k = if k' = k then some v else alookup d k := by
  by_cases h : k' = k
  · subst h
    simp [alookup, List.find?]
  · have hb : (k' == k) = false := by simp [h]
    simp [alookup, List.find?, hb, h]

theorem alookup_aset {V : Type} (d : List (String × V)) (k : String) (v : V)
    (k' : String) :
    alookup (aset d k v) k' = if k = k' then some v else alookup d k' := by
  induction d with
  | nil =>
    by_cases h : k = k' <;> simp [aset, alookup_cons, h]
  | cons kv rest ih =>
    obtain ⟨k₀, v₀⟩ := kv
    by_cases h0 : k₀ = k
    · subst h0
      by_cases h : k₀ = k' <;> simp [aset, alookup_cons, h]
    · rw [show aset ((k₀, v₀) :: rest) k v = (k₀, v₀) :: aset rest k v by
        simp [aset, h0]]
      rw [alookup_cons, alookup_cons, ih]
      by_cases h : k = k'
      · subst h
        rw [if_neg h0, if_pos rfl, if_pos rfl]
      · simp [h]

theorem mem_keys_of_alookup_some {V : Type} {d : List (String × V)} {k : String}
    {v : V} (h : alookup d k = some v) : k ∈ d.map Prod.fst := by
  induction d with
  | nil => simp [alookup] at h
  | cons kv rest ih =>
    obtain ⟨k₀, v₀⟩ := kv
    rw [alookup_cons] at h
    by_cases h0 : k₀ = k
    · simp [h0]
    · rw [if_neg h0] at h
      simp [ih h]

theorem alookup_eq_none_of_not_mem {V : Type} {d : List (String × V)} {k : String}
    (h : k ∉ d.map Prod.fst) : alookup d k = none := by
  rcases he : alookup d k with _ | v
  · rfl
  · exact absurd (mem_keys_of_alookup_some he) h

theorem alookup_dictUpdate {V : Type} (u d : List (String × V)) (k : String)
    (hnd : (u.map Prod.fst).Nodup) :
    alookup (dictUpdate d u) k =
      match alookup u k with
      | some v => some v
      | none => alookup d k := by
  induction u generalizing d with
  | nil => simp [dictUpdate]
  | cons kv rest ih =>
    obtain ⟨k₀, v₀⟩ := kv
    simp only [List.map_cons, List.nodup_cons] at hnd
    have hstep : dictUpdate d ((k₀, v₀) :: rest) = dictUpdate (aset d k₀ v₀) rest := rfl
    rw [hstep, ih (aset d k₀ v₀) hnd.2]
    rcases h : alookup rest k with _ | w
    · rw [alookup_cons, alookup_aset]
      by_cases hk : k₀ = k <;> simp [hk, h]
    · have hk : k₀ ≠ k := by
        intro he
        exact hnd.1 (he ▸ mem_keys_of_alookup_some h)
      rw [alookup_cons, if_neg hk]
      simp [h]

/-! ## Checkpoint-cadence lemmas -/

theorem stepBatch_fst (f : Nat) (t : Bool) (gs n : Nat) :
    (stepBatch f t gs n).1 = gs + n := by
  induction n generalizing gs with
  | zero => simp [stepBatch]
  | succ n ih => simp [stepBatch, ih]; omega

theorem mem_stepBatch_snd (f : Nat) (t : Bool) (gs n s : Nat) :
    s ∈ (stepBatch f t gs n).2 ↔
      gs < s ∧ s ≤ gs + n ∧ shouldSaveModel f t s = true := by
  induction n generalizing gs with
  | zero =>
    simp [stepBatch]
    omega
  | succ n ih =>
    simp only [stepBatch, List.mem_append, ih]
    constructor
    · rintro (hin | ⟨h1, h2, h3⟩)
      · rcases hsv : shouldSaveModel f t (gs + 1) with _ | _ <;> rw [hsv] at hin
        · simp at hin
        · simp at hin
          subst hin
          exact ⟨Nat.lt_succ_self gs, by omega, hsv⟩
      · exact ⟨by omega, by omega, h3⟩
    · rintro ⟨h1, h2, h3⟩
      by_cases he : s = gs + 1
      · subst he
        left
        rw [h3]
        simp
      · right
        exact ⟨by omega, by omega, h3⟩

theorem runBatches_fst (f : Nat) (t : Bool) (gs : Nat) (bs : List Nat) :
    (runBatches f t gs bs).1 = gs + bs.sum := by
  induction bs generalizing gs with
  | nil => simp [runBatches]
  | cons n bs ih => simp [runBatches, ih, stepBatch_fst]; omega

theorem mem_runBatches_snd (f : Nat) (t : Bool) (gs : Nat) (bs : List Nat) (s : Nat) :
    s ∈ (runBatches f t gs bs).2 ↔
      gs < s ∧ s ≤ gs + bs.sum ∧ shouldSaveModel f t s = true := by
  induction bs generalizing gs with
  | nil =>
    simp [runBatches]
    omega
  | cons n bs ih =>
    simp only [runBatches, List.mem_append, ih, mem_stepBatch_snd, stepBatch_fst,
      List.sum_cons]
    constructor
    · rintro (⟨h1, h2, h3⟩ | ⟨h1, h2, h3⟩)
      · exact ⟨h1, by omega, h3⟩
      · exact ⟨by omega, by omega, h3⟩
    · rintro ⟨h1, h2, h3⟩
      by_cases he : s ≤ gs + n
      · exact Or.inl ⟨h1, he, h3⟩
      · exact Or.inr ⟨by omega, by omega, h3⟩

theorem shouldSaveModel_eq_true_iff (f : Nat) (t : Bool) (s : Nat) :
    shouldSaveModel f t s = true ↔ s % f = 0 ∧ s ≠ 0 ∧ t = true := by
  cases t <;> simp [shouldSaveModel]

/-- C1: during the main loop a model checkpoint is performed at global step `s`
if and only if `s % save_freq == 0`, `s ≠ 0`, and training is enabled (and `s`
is one of the steps the loop reaches); in particular no save occurs at step 0
and none occurs when training is disabled. -/
theorem checkpoint_iff_cadence (f : Nat) (t : Bool) (bs : List Nat) (_hf : 0 < f) :
    (∀ s, s ∈ mainLoopSaves f t bs ↔
        s % f = 0 ∧ s ≠ 0 ∧ t = true ∧ s ≤ bs.sum) ∧
      0 ∉ mainLoopSaves f t bs ∧
      (t = false → mainLoopSaves f t bs = []) := by
  have hmem : ∀ s, s ∈ mainLoopSaves f t bs ↔
      s % f = 0 ∧ s ≠ 0 ∧ t = true ∧ s ≤ bs.sum := by
    intro s
    rw [mainLoopSaves, mem_runBatches_snd, shouldSaveModel_eq_true_iff]
    constructor
    · rintro ⟨h1, h2, h3, h4, h5⟩
      exact ⟨h3, h4, h5, by omega⟩
    · rintro ⟨h1, h2, h3, h4⟩
      exact ⟨by omega, by omega, h1, h2, h3⟩
  refine ⟨hmem, ?_, ?_⟩
  · intro h0
    exact absurd ((hmem 0).mp h0).2.1 (by simp)
  · intro ht
    rw [List.eq_nil_iff_forall_not_mem]
    intro s hs
    rcases (hmem s).mp hs with ⟨_, _, hcontr, _⟩
    rw [ht] at hcontr
    exact Bool.false_ne_true hcontr

/-- Witness for C1 at `save_freq = 2`, training enabled, batches `[3, 2]`:
step 2 is saved, step 3 is not, step 0 never is. -/
theorem checkpoint_iff_cadence_witness :
    2 ∈ mainLoopSaves 2 true [3, 2] ∧ 3 ∉ mainLoopSaves 2 true [3, 2] := by
  have h := checkpoint_iff_cadence 2 true [3, 2] (by decide)
  constructor
  · exact (h.1 2).mpr (by decide)
  · intro hc
    exact absurd ((h.1 3).mp hc) (by decide)

/-! ## Reset-decision lemmas -/

theorem generalizationReset_eq_true_iff (samplerEmpty : Bool) (steps : Nat)
    (interval : Option Nat) :
    generalizationReset samplerEmpty steps interval = true ↔
      samplerEmpty = false ∧ steps ≠ 0 ∧
        ∃ n, interval = some n ∧ n ≠ 0 ∧ steps % n = 0 := by
  cases samplerEmpty with
  | true => simp [generalizationReset]
  | false =>
    rcases interval with _ | n
    · simp [generalizationReset]
    · by_cases hs : steps = 0
      · simp [generalizationReset, hs]
      · by_cases hn : n = 0 <;>
          simp [generalizationReset, hs, hn]

/-- C2: `reset_env_if_ready` performs an episode-end reset if and only if
(a) some behavior's lesson advanced, or (b) the sampler manager is non-empty,
the step is non-zero, a resampling interval is configured (non-`None`,
non-zero) and `step % interval == 0`, or (c) the ghost controller requests a
reset; and at most one reset is performed per step. -/
theorem reset_iff_trigger (lessons : List (String × Bool)) (samplerEmpty : Bool)
    (ghost : Bool) (steps : Nat) (interval : Option Nat) :
    (numResetsThisStep lessons samplerEmpty ghost steps interval = 1 ↔
        ((∃ p ∈ lessons, p.2 = true) ∨
          (samplerEmpty = false ∧ steps ≠ 0 ∧
            ∃ n, interval = some n ∧ n ≠ 0 ∧ steps % n = 0) ∨
          ghost = true)) ∧
      numResetsThisStep lessons samplerEmpty ghost steps interval ≤ 1 := by
  constructor
  · rw [numResetsThisStep]
    have hdec : resetEnvIfReady lessons samplerEmpty ghost steps interval = true ↔
        ((∃ p ∈ lessons, p.2 = true) ∨
          (samplerEmpty = false ∧ steps ≠ 0 ∧
            ∃ n, interval = some n ∧ n ≠ 0 ∧ steps % n = 0) ∨
          ghost = true) := by
      rw [resetEnvIfReady]
      simp only [Bool.or_eq_true, List.any_eq_true, List.mem_map, id_eq,
        generalizationReset_eq_true_iff]
      constructor
      · rintro ((⟨b, ⟨p, hp, hb⟩, hbt⟩ | hg) | hgh)
        · exact Or.inl ⟨p, hp, hb.symm ▸ hbt ▸ (hb ▸ rfl)⟩
        · exact Or.inr (Or.inl hg)
        · exact Or.inr (Or.inr hgh)
      · rintro (⟨p, hp, hpt⟩ | hg | hgh)
        · exact Or.inl (Or.inl ⟨p.2, ⟨p, hp, rfl⟩, hpt⟩)
        · exact Or.inl (Or.inr hg)
        · exact Or.inr hgh
    rcases hr : resetEnvIfReady lessons samplerEmpty ghost steps interval with _ | _
    · rw [hr] at hdec
      simp only [if_neg Bool.false_ne_true]
      constructor
      · intro h01
        exact absurd h01 (by decide)
      · intro htrig
        exact absurd (hdec.mpr htrig) (by simp)
    · rw [hr] at hdec
      simp only [if_pos rfl]
      exact ⟨fun _ => hdec.mp rfl, fun _ => rfl⟩
  · rw [numResetsThisStep]
    rcases resetEnvIfReady lessons samplerEmpty ghost steps interval with _ | _ <;> simp

/-- Witness for C2: ghost reset alone triggers exactly one reset; with no
trigger at all there is no reset. -/
theorem reset_iff_trigger_witness :
    numResetsThisStep [("b", false)] true true 5 none = 1 ∧
      numResetsThisStep [("b", false)] true false 5 none = 0 := by
  constructor
  · exact (reset_iff_trigger [("b", false)] true true 5 none).1.mpr
      (Or.inr (Or.inr rfl))
  · have h := (reset_iff_trigger [("b", false)] true false 5 none).2
    have hne : numResetsThisStep [("b", false)] true false 5 none ≠ 1 := by
      intro h1
      rcases (reset_iff_trigger [("b", false)] true false 5 none).1.mp h1 with
        hc | hc | hc
      · rcases hc with ⟨p, hp, hpt⟩
        simp at hp
        subst hp
        exact Bool.false_ne_true hpt
      · rcases hc with ⟨_, _, n, hn, _⟩
        exact Option.noConfusion hn
      · exact Bool.false_ne_true hc
    omega

/-- C10: evaluating the resampling condition never divides by zero — the
checked evaluation always returns `ok`, agreeing with the plain condition, and
when the interval is `None` or `0` (not configured) the condition is false
without the modulus being reached. -/
theorem resampling_never_divides_by_zero (samplerEmpty : Bool) (steps : Nat)
    (interval : Option Nat) :
    generalizationResetChecked samplerEmpty steps interval =
        Except.ok (generalizationReset samplerEmpty steps interval) ∧
      (intervalTruthy interval = false →
        generalizationReset samplerEmpty steps interval = false) := by
  constructor
  · cases samplerEmpty with
    | true => simp [generalizationResetChecked, generalizationReset]
    | false =>
      by_cases hs : steps == 0
      · simp [generalizationResetChecked, generalizationReset, hs]
      · rcases interval with _ | n
        · simp [generalizationResetChecked, generalizationReset, hs]
        · by_cases hn : n == 0
          · simp [generalizationResetChecked, generalizationReset, hs, hn]
          · simp [generalizationResetChecked, generalizationReset, checkedMod, hs, hn,
              Except.map]
  · intro htr
    rcases interval with _ | n
    · cases samplerEmpty <;> simp [generalizationReset]
    · have hn : n = 0 := by
        simpa [intervalTruthy] using htr
      subst hn
      cases samplerEmpty with
      | true => simp [generalizationReset]
      | false =>
        by_cases hs : steps == 0 <;> simp [generalizationReset, hs]

/-- Witness for C10: with an unconfigured (`0`) interval at a step that would
match any cadence, the checked evaluation returns `ok false`. -/
theorem resampling_never_divides_by_zero_witness :
    generalizationResetChecked false 6 (some 0) = Except.ok false ∧
      generalizationReset false 6 (some 0) = false := by
  have h := resampling_never_divides_by_zero false 6 (some 0)
  have h2 := h.2 (by decide)
  exact ⟨h2 ▸ h.1, h2⟩

/-! ## Episode-end reset: reward-buffer lemmas -/

theorem clearChangedBuffers_lookup (lessons : List (String × Bool)) :
    ∀ ts ts', (lessons.map Prod.fst).Nodup →
      clearChangedBuffers ts lessons = Except.ok ts' →
      ∀ bn t, alookup ts bn = some t →
        alookup ts' bn = some { t with rewardBuffer :=
          (if alookup lessons bn = some true then [] else t.rewardBuffer) } := by
  induction lessons with
  | nil =>
    intro ts ts' _ hok bn t hl
    rw [show ts' = ts from (Except.ok.injEq _ _).mp hok.symm]
    simpa using hl
  | cons p rest ih =>
    intro ts ts' hnd hok bn t hl
    obtain ⟨bn0, changed⟩ := p
    simp only [List.map_cons, List.nodup_cons] at hnd
    cases changed with
    | false =>
      rw [show clearChangedBuffers ts ((bn0, false) :: rest) =
          clearChangedBuffers ts rest by simp [clearChangedBuffers]] at hok
      have hres := ih ts ts' hnd.2 hok bn t hl
      by_cases hbn : bn0 = bn
      · subst hbn
        have hrest : alookup rest bn0 = none :=
          alookup_eq_none_of_not_mem hnd.1
        rw [alookup_cons, if_pos rfl]
        rw [hrest] at hres
        simpa using hres
      · rw [alookup_cons, if_neg hbn]
        exact hres
    | true =>
      rcases h0 : alookup ts bn0 with _ | t0
      · rw [show clearChangedBuffers ts ((bn0, true) :: rest) =
            Except.error bn0 by simp [clearChangedBuffers, h0]] at hok
        exact absurd hok (by simp)
      · rw [show clearChangedBuffers ts ((bn0, true) :: rest) =
            clearChangedBuffers (aset ts bn0 { t0 with rewardBuffer := [] }) rest by
          simp [clearChangedBuffers, h0]] at hok
        by_cases hbn : bn0 = bn
        · subst hbn
          have ht : t = t0 := by
            rw [h0] at hl
            exact (Option.some.injEq _ _).mp hl.symm
          subst ht
          have hset : alookup (aset ts bn0 { t with rewardBuffer := [] }) bn0 =
              some { t with rewardBuffer := [] } := by
            rw [alookup_aset, if_pos rfl]
          have hres := ih _ ts' hnd.2 hok bn0 _ hset
          rw [alookup_cons, if_pos rfl]
          rcases hrl : alookup rest bn0 with _ | b
          · rw [hrl] at hres
            simpa using hres
          · rw [hrl] at hres
            rcases b with _ | _
            · simpa using hres
            · simpa using hres
        · have hset : alookup (aset ts bn0 { t0 with rewardBuffer := [] }) bn =
              some t := by
            rw [alookup_aset, if_neg hbn]
            exact hl
          have hres := ih _ ts' hnd.2 hok bn t hset
          rw [alookup_cons, if_neg hbn]
          exact hres

theorem clearChangedBuffers_no_change (lessons : List (String × Bool)) :
    ∀ ts, (∀ p ∈ lessons, p.2 = false) →
      clearChangedBuffers ts lessons = Except.ok ts := by
  induction lessons with
  | nil => intro ts _; rfl
  | cons p rest ih =>
    intro ts hall
    obtain ⟨bn0, changed⟩ := p
    have hc : changed = false := hall (bn0, changed) (by simp)
    subst hc
    rw [show clearChangedBuffers ts ((bn0, false) :: rest) =
        clearChangedBuffers ts rest by simp [clearChangedBuffers]]
    exact ih ts (fun q hq => hall q (by simp [hq]))

/-- C3: during an episode-end reset, a trainer's reward buffer is cleared if
and only if its brain is marked changed in `lessons_incremented` for that same
reset; a reset in which no lesson changed leaves every reward buffer (indeed
the whole trainer map) untouched. -/
theorem reward_buffer_cleared_iff_lesson_changed (ts : List (String × Trainer))
    (lessons : List (String × Bool)) (ts' : List (String × Trainer))
    (hnd : (lessons.map Prod.fst).Nodup)
    (hok : endTrainerEpisodes ts lessons = Except.ok ts') :
    (∀ bn t, alookup ts bn = some t →
        alookup ts' bn = some { t with rewardBuffer :=
          (if alookup lessons bn = some true then [] else t.rewardBuffer) }) ∧
      ((∀ p ∈ lessons, p.2 = false) → ts' = ts) := by
  constructor
  · exact clearChangedBuffers_lookup lessons ts ts' hnd hok
  · intro hall
    have h := clearChangedBuffers_no_change lessons ts hall
    rw [endTrainerEpisodes, h] at hok
    exact ((Except.ok.injEq _ _).mp hok).symm

/-- Witness for C3: brain `a` changed (buffer cleared), brain `b` did not
(buffer `[3]` untouched). -/
theorem reward_buffer_cleared_iff_lesson_changed_witness :
    alookup
        [("a", Trainer.mk true []), ("b", Trainer.mk true [3])] "a" =
        some (Trainer.mk true []) ∧
      alookup
        [("a", Trainer.mk true []), ("b", Trainer.mk true [3])] "b" =
        some (Trainer.mk true [3]) := by
  have h := reward_buffer_cleared_iff_lesson_changed
    [("a", Trainer.mk true [1, 2]), ("b", Trainer.mk true [3])]
    [("a", true), ("b", false)]
    [("a", Trainer.mk true []), ("b", Trainer.mk true [3])]
    (by decide) rfl
  have ha := h.1 "a" (Trainer.mk true [1, 2]) rfl
  have hb := h.1 "b" (Trainer.mk true [3]) rfl
  exact ⟨ha.trans rfl, hb.trans rfl⟩

/-! ## Loop continuation and shutdown-protocol theorems -/

/-- C4 (counterexample): with training disabled and an empty trainer set,
`_not_done_training` returns `True` (inference mode is never "done" and an
empty trainer map also keeps the loop going), not `False` as claimed. -/
theorem notDone_empty_inference_counterexample :
    notDoneTraining [] false = true := rfl

/-- C4 (amended): with training disabled and an empty trainer set the
continuation predicate is `True` — the loop keeps running rather than
terminating — but no checkpoint and no export are performed: the per-step save
check, the shutdown save and the graph export are all gated on `train_model`. -/
theorem empty_inference_keeps_looping_no_side_effects :
    notDoneTraining [] false = true ∧
      (∀ f s, shouldSaveModel f false s = false) ∧
      (∀ notifyOk gs loopExc,
        (startLearningExit false notifyOk gs loopExc).1.countP isSaveEvent = 0 ∧
          (startLearningExit false notifyOk gs loopExc).1.countP isExportEvent = 0) := by
  refine ⟨rfl, ?_, ?_⟩
  · intro f s
    simp [shouldSaveModel]
  · intro notifyOk gs loopExc
    rcases loopExc with _ | e
    · simp [startLearningExit, isSaveEvent, isExportEvent]
    · rcases e <;> rcases notifyOk <;>
        simp [startLearningExit, saveModelWhenInterrupted, isCaught, isCleanExit,
          isSaveEvent, isExportEvent]

/-- C5 (counterexample): with training enabled, a `KeyboardInterrupt`
termination whose completion POST fails to deliver makes `start_learning`
itself raise — the `requests.post` call in `_save_model_when_interrupted` is
not guarded, so the notification failure escapes the run call, contrary to the
claim. -/
theorem notify_failure_escapes_counterexample :
    (startLearningExit true false 7 (some Exc.keyboardInterrupt)).2 =
      some Exc.requestFailure := rfl

/-- C5 (amended): on interrupted or failed termination with training enabled,
exactly one completion event, with payload `{'training': 'stopped'}`, is
POSTed to the external listener; if the delivery fails, however, the resulting
exception propagates out of `start_learning` (the notification attempt is
unguarded). -/
theorem stopped_notification_emitted_once (e : Exc) (notifyOk : Bool) (gs : Nat)
    (hc : isCaught e = true) :
    (startLearningExit true notifyOk gs (some e)).1.countP isNotifyEvent = 1 ∧
      Event.notifyStopped [("training", "stopped")] ∈
        (startLearningExit true notifyOk gs (some e)).1 ∧
      (notifyOk = false →
        (startLearningExit true notifyOk gs (some e)).2 = some Exc.requestFailure) := by
  cases e <;> cases notifyOk <;>
    simp_all [startLearningExit, saveModelWhenInterrupted, isCaught, isCleanExit,
      isNotifyEvent]

/-- Witness for C5 (amended): a communicator failure with an unreachable
listener makes the POST failure escape the run call. -/
theorem stopped_notification_emitted_once_witness :
    (startLearningExit true false 3 (some Exc.unityCommunication)).2 =
      some Exc.requestFailure := by
  have h := stopped_notification_emitted_once Exc.unityCommunication false 3 rfl
  exact h.2.2 rfl

/-- C7: when the main loop raises (and the completion POST, if attempted, is
deliverable): `KeyboardInterrupt` and `UnityCommunicatorStoppedException` end
the run with no exception escaping `start_learning`;
`UnityCommunicationException` and `UnityEnvironmentException` end it with the
original exception re-raised; in every case, when training is enabled a
checkpoint save and the graph export are performed on the way out. -/
theorem exit_protocol_on_loop_exception (trainModel : Bool) (gs : Nat) (e : Exc)
    (hc : isCaught e = true) :
    (startLearningExit trainModel true gs (some e)).2 =
        (if isCleanExit e then none else some e) ∧
      (trainModel = true →
        Event.saveModel ∈ (startLearningExit trainModel true gs (some e)).1 ∧
          Event.exportGraph ∈ (startLearningExit trainModel true gs (some e)).1) := by
  cases e <;> cases trainModel <;>
    simp_all [startLearningExit, saveModelWhenInterrupted, isCaught, isCleanExit]

/-- Witness for C7: an environment failure at step 5 with training enabled is
re-raised after the export. -/
theorem exit_protocol_on_loop_exception_witness :
    (startLearningExit true true 5 (some Exc.unityEnvironment)).2 =
        some Exc.unityEnvironment ∧
      Event.exportGraph ∈ (startLearningExit true true 5 (some Exc.unityEnvironment)).1 := by
  have h := exit_protocol_on_loop_exception true 5 Exc.unityEnvironment rfl
  exact ⟨h.1.trans (by rfl), (h.2 rfl).2⟩

/-! ## Trainer-creation lemmas -/

theorem acontains_aset_iff {V : Type} (d : List (String × V)) (k : String) (v : V)
    (k' : String) :
    acontains (aset d k v) k' = true ↔ k = k' ∨ acontains d k' = true := by
  rw [acontains, alookup_aset]
  by_cases h : k = k' <;> simp [h, acontains]

theorem count_append_singleton (l : List String) (x bn : String) :
    (l ++ [x]).count bn = l.count bn + (if x = bn then 1 else 0) := by
  rw [List.count_append]
  by_cases h : x = bn <;> simp [List.count_cons, h]

theorem createTrainerAndManager_preserves (brainOf : String → String)
    (st : ControllerState) (bid bn : String) (tr : Nat)
    (h : alookup st.trainers bn = some tr) :
    alookup (createTrainerAndManager brainOf st bid).trainers bn = some tr := by
  simp only [createTrainerAndManager]
  rcases hb : alookup st.trainers (brainOf bid) with _ | t0
  · have hne : brainOf bid ≠ bn := by
      intro he
      rw [he, h] at hb
      exact Option.noConfusion hb
    simp only [alookup_aset, if_neg hne]
    exact h
  · exact h

theorem createTrainersAndManagers_preserves (brainOf : String → String)
    (bids : List String) :
    ∀ st bn tr, alookup st.trainers bn = some tr →
      alookup (createTrainersAndManagers brainOf st bids).trainers bn = some tr := by
  induction bids with
  | nil => intro st bn tr h; exact h
  | cons bid rest ih =>
    intro st bn tr h
    exact ih (createTrainerAndManager brainOf st bid) bn tr
      (createTrainerAndManager_preserves brainOf st bid bn tr h)

theorem createTrainersAndManagers_invariant (brainOf : String → String)
    (bids : List String) :
    ∀ st bn,
      (acontains st.trainers bn = true →
        (createTrainersAndManagers brainOf st bids).createdBrains.count bn =
          st.createdBrains.count bn) ∧
      (acontains st.trainers bn = false →
        (createTrainersAndManagers brainOf st bids).createdBrains.count bn =
          st.createdBrains.count bn + (if bn ∈ bids.map brainOf then 1 else 0)) ∧
      (acontains (createTrainersAndManagers brainOf st bids).trainers bn = true ↔
        (acontains st.trainers bn = true ∨ bn ∈ bids.map brainOf)) := by
  induction bids with
  | nil =>
    intro st bn
    exact ⟨fun _ => rfl, fun _ => by simp [createTrainersAndManagers],
      by simp [createTrainersAndManagers]⟩
  | cons bid rest ih =>
    intro st bn
    have hfold : createTrainersAndManagers brainOf st (bid :: rest) =
        createTrainersAndManagers brainOf (createTrainerAndManager brainOf st bid) rest :=
      rfl
    obtain ⟨ih1, ih2, ih3⟩ := ih (createTrainerAndManager brainOf st bid) bn
    rcases hb : alookup st.trainers (brainOf bid) with _ | t0
    · -- a new trainer is generated for `brainOf bid`
      have htr : (createTrainerAndManager brainOf st bid).trainers =
          aset st.trainers (brainOf bid) st.createdBrains.length := by
        simp [createTrainerAndManager, hb]
      have hcb : (createTrainerAndManager brainOf st bid).createdBrains =
          st.createdBrains ++ [brainOf bid] := by
        simp [createTrainerAndManager, hb]
      have hac : acontains (createTrainerAndManager brainOf st bid).trainers bn = true ↔
          (brainOf bid = bn ∨ acontains st.trainers bn = true) := by
        rw [htr]
        exact acontains_aset_iff st.trainers (brainOf bid) st.createdBrains.length bn
      have hcount : (createTrainerAndManager brainOf st bid).createdBrains.count bn =
          st.createdBrains.count bn + (if brainOf bid = bn then 1 else 0) := by
        rw [hcb]
        exact count_append_singleton st.createdBrains (brainOf bid) bn
      refine ⟨?_, ?_, ?_⟩
      · intro hst
        have hne : brainOf bid ≠ bn := by
          intro he
          rw [acontains, ← he, hb] at hst
          simp at hst
        rw [hfold, ih1 (hac.mpr (Or.inr hst)), hcount, if_neg hne]
        omega
      · intro hst
        by_cases he : brainOf bid = bn
        · subst he
          have h1 := ih1 (hac.mpr (Or.inl rfl))
          rw [hfold, h1, hcount, if_pos rfl]
          simp
        · have hac2 : acontains (createTrainerAndManager brainOf st bid).trainers bn = false := by
            rcases hh : acontains (createTrainerAndManager brainOf st bid).trainers bn with _ | _
            · rfl
            · rcases hac.mp hh with hcon | hcon
              · exact absurd hcon he
              · rw [hst] at hcon
                exact absurd hcon (by simp)
          have h2 := ih2 hac2
          rw [hfold, h2, hcount, if_neg he]
          have hmem : (bn ∈ (bid :: rest).map brainOf) ↔ bn ∈ rest.map brainOf := by
            simp only [List.map_cons, List.mem_cons]
            constructor
            · rintro (hcon | hmm)
              · exact absurd hcon.symm he
              · exact hmm
            · exact Or.inr
          rw [if_congr hmem rfl rfl]
          omega
      · rw [hfold, ih3, hac]
        simp only [List.map_cons, List.mem_cons]
        constructor
        · rintro ((hh | hh) | hh)
          · exact Or.inr (Or.inl hh.symm)
          · exact Or.inl hh
          · exact Or.inr (Or.inr hh)
        · rintro (hh | hh | hh)
          · exact Or.inl (Or.inr hh)
          · exact Or.inl (Or.inl hh.symm)
          · exact Or.inr hh
    · -- the trainer already exists; state other than the identifier map unchanged
      have htr : (createTrainerAndManager brainOf st bid).trainers = st.trainers := by
        simp [createTrainerAndManager, hb]
      have hcb : (createTrainerAndManager brainOf st bid).createdBrains =
          st.createdBrains := by
        simp [createTrainerAndManager, hb]
      have hbid : brainOf bid = bn → acontains st.trainers bn = true := by
        intro he
        rw [acontains, ← he, hb]
        rfl
      refine ⟨?_, ?_, ?_⟩
      · intro hst
        rw [hfold, ih1 (by rw [htr]; exact hst), hcb]
      · intro hst
        have hne : brainOf bid ≠ bn := by
          intro he
          rw [hbid he] at hst
          exact Bool.noConfusion hst
        have h2 := ih2 (by rw [htr]; exact hst)
        rw [hfold, h2, hcb]
        have hmem : (bn ∈ (bid :: rest).map brainOf) ↔ bn ∈ rest.map brainOf := by
          simp only [List.map_cons, List.mem_cons]
          constructor
          · rintro (hcon | hmm)
            · exact absurd hcon.symm hne
            · exact hmm
          · exact Or.inr
        rw [if_congr hmem rfl rfl]
      · rw [hfold, ih3, htr]
        simp only [List.map_cons, List.mem_cons]
        constructor
        · rintro (hh | hh)
          · exact Or.inl hh
          · exact Or.inr (Or.inr hh)
        · rintro (hh | hh | hh)
          · exact Or.inl hh
          · exact Or.inl (hbid hh.symm)
          · exact Or.inr hh

/-- C6: over any sequence of newly observed behavior identifiers, exactly one
trainer is generated per distinct brain name (none for unobserved brains); a
trainer exists for a brain if and only if some identifier of that brain has
been observed; and an existing trainer entry is never removed or replaced by
later processing. -/
theorem one_trainer_per_brain (brainOf : String → String) (bids : List String) :
    (∀ bn,
        (createTrainersAndManagers brainOf initialControllerState bids).createdBrains.count bn =
          (if bn ∈ bids.map brainOf then 1 else 0)) ∧
      (∀ bn,
        acontains (createTrainersAndManagers brainOf initialControllerState bids).trainers bn
            = true ↔
          bn ∈ bids.map brainOf) ∧
      (∀ st bids2 bn tr, alookup st.trainers bn = some tr →
        alookup (createTrainersAndManagers brainOf st bids2).trainers bn = some tr) := by
  refine ⟨?_, ?_, fun st bids2 => createTrainersAndManagers_preserves brainOf bids2 st⟩
  · intro bn
    obtain ⟨_, h2, _⟩ := createTrainersAndManagers_invariant brainOf bids
      initialControllerState bn
    simpa [initialControllerState, acontains] using h2 rfl
  · intro bn
    obtain ⟨_, _, h3⟩ := createTrainersAndManagers_invariant brainOf bids
      initialControllerState bn
    rw [h3]
    simp [initialControllerState, acontains]

/-- Witness for C6 with two identifiers of brain `A` and one of brain `B`
(the brain name is the identifier's first character): one trainer generated for
`A`, and the `A` entry survives the later identifiers. -/
theorem one_trainer_per_brain_witness :
    (createTrainersAndManagers (fun s => s.take 1) initialControllerState
        ["A1", "A2", "B1"]).createdBrains.count "A" = 1 ∧
      alookup
        (createTrainersAndManagers (fun s => s.take 1)
          (createTrainersAndManagers (fun s => s.take 1) initialControllerState ["A1"])
          ["A2", "B1"]).trainers "A" = some 0 := by
  have h := one_trainer_per_brain (fun s => s.take 1) ["A1", "A2", "B1"]
  constructor
  · exact (h.1 "A").trans (by decide)
  · exact h.2.2
      (createTrainersAndManagers (fun s => s.take 1) initialControllerState ["A1"])
      ["A2", "B1"] "A" 0 rfl

/-! ## Environment-reset configuration theorem -/

/-- C9: the configuration `_reset_env` passes to `env.reset` equals the sampled
randomized parameters merged with the curriculum-derived configuration, the
curriculum's value winning for every key present in both. -/
theorem reset_config_curriculum_wins {V : Type} (sampled curr : List (String × V))
    (hnd : (curr.map Prod.fst).Nodup) :
    (∀ k v, alookup curr k = some v →
        alookup (resetEnvConfig sampled (some curr)) k = some v) ∧
      (∀ k, alookup curr k = none →
        alookup (resetEnvConfig sampled (some curr)) k = alookup sampled k) := by
  have h : ∀ k, alookup (resetEnvConfig sampled (some curr)) k =
      match alookup curr k with
      | some v => some v
      | none => alookup sampled k :=
    fun k => alookup_dictUpdate curr sampled k hnd
  constructor
  · intro k v hv
    rw [h k, hv]
  · intro k hv
    rw [h k, hv]

/-- Witness for C9: curriculum value `9` overrides the sampled `2` for key
`b`; key `a`, absent from the curriculum config, keeps its sampled value. -/
theorem reset_config_curriculum_wins_witness :
    alookup (resetEnvConfig [("a", 1), ("b", 2)] (some [("b", 9), ("c", 3)])) "b" =
        some 9 ∧
      alookup (resetEnvConfig [("a", 1), ("b", 2)] (some [("b", 9), ("c", 3)])) "a" =
        some 1 := by
  have h := reset_config_curriculum_wins [("a", 1), ("b", 2)] [("b", 9), ("c", 3)]
    (by decide)
  exact ⟨h.1 "b" 9 rfl, (h.2 "a" rfl).trans rfl⟩

/-! ## Trainer-construction theorems -/

/-- C8: `initialize_trainer` fails with `TrainerConfigError` when neither a
`"default"` section nor a section for the brain exists; fails with
`UnityTrainerException` when the declared trainer kind is the removed
`"offline_bc"`; fails with `TrainerConfigError` when the declared kind is any
string other than `"ppo"`, `"sac"` or `"offline_bc"`; and when the parameter
assembly succeeds with declared kind `"ppo"` or `"sac"` it returns a
constructed trainer of that kind without raising. -/
theorem initialize_trainer_error_protocol (mydemopath : String)
    (cfg : List (String × PVal)) (brain runId modelPath : String)
    (keepCheckpoints : Nat) (initPath : Option String)
    (metaCurriculum : Option (List (String × Nat))) (aliasFuel : Nat) :
    (acontains cfg "default" = false → acontains cfg brain = false →
      initializeTrainer mydemopath cfg brain runId modelPath keepCheckpoints
          initPath metaCurriculum aliasFuel =
        Except.error InitError.trainerConfigError) ∧
    (∀ p, buildTrainerParameters mydemopath cfg brain runId modelPath
        keepCheckpoints initPath aliasFuel = Except.ok p →
      (alookup p "trainer" = some (PVal.str "offline_bc") →
        initializeTrainer mydemopath cfg brain runId modelPath keepCheckpoints
            initPath metaCurriculum aliasFuel =
          Except.error InitError.unityTrainerException) ∧
      (∀ t, alookup p "trainer" = some (PVal.str t) →
        t ≠ "offline_bc" → t ≠ "ppo" → t ≠ "sac" →
        initializeTrainer mydemopath cfg brain runId modelPath keepCheckpoints
            initPath metaCurriculum aliasFuel =
          Except.error InitError.trainerConfigError) ∧
      (∀ t, alookup p "trainer" = some (PVal.str t) → t = "ppo" ∨ t = "sac" →
        initializeTrainer mydemopath cfg brain runId modelPath keepCheckpoints
            initPath metaCurriculum aliasFuel =
          Except.ok ⟨t, acontains p "self_play",
            minLessonLength metaCurriculum brain, p⟩)) := by
  constructor
  · intro h1 h2
    have hb : buildTrainerParameters mydemopath cfg brain runId modelPath
        keepCheckpoints initPath aliasFuel =
        Except.error InitError.trainerConfigError := by
      rw [buildTrainerParameters]
      simp [h1, h2]
    rw [initializeTrainer, hb]
  · intro p hok
    have hinit : initializeTrainer mydemopath cfg brain runId modelPath
        keepCheckpoints initPath metaCurriculum aliasFuel =
        selectTrainer (minLessonLength metaCurriculum brain) p := by
      rw [initializeTrainer, hok]
    refine ⟨?_, ?_, ?_⟩
    · intro ht
      rw [hinit, selectTrainer, acontains, ht]
      simp
    · intro t ht hbc hppo hsac
      rw [hinit, selectTrainer, acontains, ht]
      simp [hbc, hppo, hsac]
    · intro t ht hts
      rw [hinit, selectTrainer, acontains, ht]
      rcases hts with h | h <;> subst h <;> simp

/-- Witness for C8: a config with no `"default"` and no brain section errors;
the same assembled parameters select `ppo`, `offline_bc` or an unknown kind
according to the `"trainer"` value. -/
theorem initialize_trainer_error_protocol_witness :
    initializeTrainer "d" [] "B" "r" "m" 3 none none 5 =
        Except.error InitError.trainerConfigError ∧
      initializeTrainer "d"
          [("default", PVal.dict [("trainer", PVal.str "ppo"),
            ("behavioral_cloning", PVal.dict []),
            ("reward_signals", PVal.dict [("gail", PVal.dict [])])])]
          "B" "r" "m" 3 none none 5 =
        Except.ok ⟨"ppo", false, 1,
          [("trainer", PVal.str "ppo"),
            ("behavioral_cloning", PVal.dict [("demo_path", PVal.str "d")]),
            ("reward_signals", PVal.dict [("gail",
              PVal.dict [("demo_path", PVal.str "d")])]),
            ("summary_path", PVal.str "r_B"),
            ("model_path", PVal.str "m/B"),
            ("keep_checkpoints", PVal.num 3)]⟩ ∧
      initializeTrainer "d"
          [("default", PVal.dict [("trainer", PVal.str "offline_bc"),
            ("behavioral_cloning", PVal.dict []),
            ("reward_signals", PVal.dict [("gail", PVal.dict [])])])]
          "B" "r" "m" 3 none none 5 =
        Except.error InitError.unityTrainerException ∧
      initializeTrainer "d"
          [("default", PVal.dict [("trainer", PVal.str "foo"),
            ("behavioral_cloning", PVal.dict []),
            ("reward_signals", PVal.dict [("gail", PVal.dict [])])])]
          "B" "r" "m" 3 none none 5 =
        Except.error InitError.trainerConfigError := by
  refine ⟨(initialize_trainer_error_protocol "d" [] "B" "r" "m" 3 none none 5).1
    rfl rfl, ?_, ?_, ?_⟩
  · exact ((initialize_trainer_error_protocol "d"
        [("default", PVal.dict [("trainer", PVal.str "ppo"),
          ("behavioral_cloning", PVal.dict []),
          ("reward_signals", PVal.dict [("gail", PVal.dict [])])])]
        "B" "r" "m" 3 none none 5).2
      [("trainer", PVal.str "ppo"),
        ("behavioral_cloning", PVal.dict [("demo_path", PVal.str "d")]),
        ("reward_signals", PVal.dict [("gail",
          PVal.dict [("demo_path", PVal.str "d")])]),
        ("summary_path", PVal.str "r_B"),
        ("model_path", PVal.str "m/B"),
        ("keep_checkpoints", PVal.num 3)] rfl).2.2 "ppo" rfl (Or.inl rfl)
  · exact ((initialize_trainer_error_protocol "d"
        [("default", PVal.dict [("trainer", PVal.str "offline_bc"),
          ("behavioral_cloning", PVal.dict []),
          ("reward_signals", PVal.dict [("gail", PVal.dict [])])])]
        "B" "r" "m" 3 none none 5).2
      [("trainer", PVal.str "offline_bc"),
        ("behavioral_cloning", PVal.dict [("demo_path", PVal.str "d")]),
        ("reward_signals", PVal.dict [("gail",
          PVal.dict [("demo_path", PVal.str "d")])]),
        ("summary_path", PVal.str "r_B"),
        ("model_path", PVal.str "m/B"),
        ("keep_checkpoints", PVal.num 3)] rfl).1 rfl
  · exact ((initialize_trainer_error_protocol "d"
        [("default", PVal.dict [("trainer", PVal.str "foo"),
          ("behavioral_cloning", PVal.dict []),
          ("reward_signals", PVal.dict [("gail", PVal.dict [])])])]
        "B" "r" "m" 3 none none 5).2
      [("trainer", PVal.str "foo"),
        ("behavioral_cloning", PVal.dict [("demo_path", PVal.str "d")]),
        ("reward_signals", PVal.dict [("gail",
          PVal.dict [("demo_path", PVal.str "d")])]),
        ("summary_path", PVal.str "r_B"),
        ("model_path", PVal.str "m/B"),
        ("keep_checkpoints", PVal.num 3)] rfl).2.1 "foo"
      rfl (by decide) (by decide) (by decide)

end MLAgents
